import Mathlib

set_option maxRecDepth 4000

/- Shallow embedding of the TabaDigit ESL API (src/main.py and src/schemas.py):
   a FastAPI CRUD gateway over a MongoDB document store. JSON scalar values are
   modelled by `Value` (numbers as rationals, datetimes as opaque strings),
   documents as association lists with unique keys kept in insertion order,
   and the document store as per-collection lists of documents plus a counter
   assigning fresh identifiers. -/

inductive Value where
  | vStr (s : String)
  | vNum (q : Rat)
  | vInt (n : Int)
  | vBool (b : Bool)
  | vNull
  deriving DecidableEq, Repr

open Value

/-- A BSON/JSON document: association list from field names to values. -/
abbrev Doc := List (String × Value)

/-- Field lookup in a document (Python `doc.get(k)` / `doc[k]`). -/
def getVal : Doc → String → Option Value
  | [], _ => none
  | (k, v) :: rest, key => if k = key then some v else getVal rest key

/-- Field write in a document (Python `doc[k] = v`): replaces the value in
place if the key exists, appends otherwise, as a Python dict does. -/
def setVal : Doc → String → Value → Doc
  | [], k, v => [(k, v)]
  | (k0, v0) :: rest, k, v =>
      if k0 = k then (k, v) :: rest else (k0, v0) :: setVal rest k v

/-- Field removal (Python `doc.pop(k)`). -/
def delVal : Doc → String → Doc
  | [], _ => []
  | (k0, v0) :: rest, k => if k0 = k then rest else (k0, v0) :: delVal rest k

/-- MongoDB `$set` applied to one document: each pair of the update object is
written over the document, later pairs last. -/
def applySet (pairs : Doc) (d : Doc) : Doc :=
  pairs.foldl (fun acc kv => setVal acc kv.1 kv.2) d

/-- Python truthiness of a JSON value, as used by `if doc.get("_id")`. -/
def vTruthy : Value → Bool
  | vStr s => !(s.data.isEmpty)
  | vNum q => !(q = 0)
  | vInt n => !(n = 0)
  | vBool b => b
  | vNull => false

/-- Python `str(...)` on a stored value; on this API it is only reached for
the stored `_id` string. -/
def vToString : Value → String
  | vStr s => s
  | vNum q => toString q
  | vInt n => toString n
  | vBool b => toString b
  | vNull => "None"

/-- src/main.py `_serialize`: on a non-empty document whose `_id` field is
truthy, removes `_id` and appends `id` bound to its string form. -/
def serializeDoc (d : Doc) : Doc :=
  if d.isEmpty then d
  else
    match getVal d "_id" with
    | some v =>
        if vTruthy v then delVal d "_id" ++ [("id", vStr (vToString v))] else d
    | none => d

/-- Python string slicing `s[:n]`: the first `n` characters. -/
def takeChars (n : Nat) (s : String) : String :=
  ⟨s.data.take n⟩

/-- Validity of an ObjectId token as `bson.ObjectId(s)` accepts it from a
string: exactly 24 hexadecimal characters (either case). -/
def isValidOid (s : String) : Bool :=
  s.data.length = 24 && s.data.all (fun c => c.isDigit || (('a' ≤ c && c ≤ 'f') || ('A' ≤ c && c ≤ 'F')))

/-- The message of `bson.errors.InvalidId` for a malformed token (modelled
without quoting the offending string). -/
def invalidIdMsg (s : String) : String :=
  s ++ " is not a valid ObjectId, it must be a 12-byte input or a 24-character hex string"

/-- Character-wise lower-casing of a hex token. -/
def lowerStr (s : String) : String :=
  ⟨s.data.map Char.toLower⟩

/-- `bson.ObjectId(s)`: parses a 24-hex-character token (normalising case,
since ObjectId equality is on the underlying bytes) or fails with
`InvalidId`. -/
def oidParse (s : String) : Except String String :=
  if isValidOid s then Except.ok (lowerStr s) else Except.error (invalidIdMsg s)

/-- Store-assigned identifier for the `n`-th insert: `n` in hexadecimal,
zero-padded to the 24-character ObjectId width. -/
def genId (n : Nat) : String :=
  ⟨List.replicate (24 - (Nat.toDigits 16 n).length) '0' ++ Nat.toDigits 16 n⟩

/-- The three collections the claims touch (`store` is never written by the
endpoints under test). -/
inductive Coll where
  | tobaccoproduct
  | label
  | priceupdate
  deriving DecidableEq, Repr

/-- Modelled from the spec: the document store behind database.py (not under
src/), §6 — per-collection sequences of documents in insertion order, plus
the counter from which inserted identifiers are assigned. -/
structure DBState where
  tobaccoproduct : List Doc := []
  label : List Doc := []
  priceupdate : List Doc := []
  nextId : Nat := 0
  deriving DecidableEq, Repr

def getColl (st : DBState) : Coll → List Doc
  | Coll.tobaccoproduct => st.tobaccoproduct
  | Coll.label => st.label
  | Coll.priceupdate => st.priceupdate

def setColl (st : DBState) : Coll → List Doc → DBState
  | Coll.tobaccoproduct, l => { st with tobaccoproduct := l }
  | Coll.label, l => { st with label := l }
  | Coll.priceupdate, l => { st with priceupdate := l }

/-- Modelled from the spec: `insert(collection, document) -> identifier`
(§6); the store assigns a fresh identifier, stores the document with `_id`
bound to it, and returns the identifier. -/
def insertDoc (st : DBState) (c : Coll) (d : Doc) : String × DBState :=
  let i := genId st.nextId
  (i, { setColl st c (getColl st c ++ [("_id", vStr i) :: d]) with nextId := st.nextId + 1 })

/-- An HTTP-level failure of a handler: either an explicit `HTTPException`
with its status code, or an exception the handler never catches, which the
framework surfaces as a 500. -/
inductive HErr where
  | http (status : Nat) (detail : String)
  | unhandled (msg : String)
  deriving DecidableEq, Repr

def HErr.statusCode : HErr → Nat
  | HErr.http s _ => s
  | HErr.unhandled _ => 500

/-- Modelled from the spec: database.py `create_document` (not under src/),
§6 — inserts the validated model dump into the named collection and returns
the newly assigned identifier; fails as `Unavailable` without a store. -/
def create_document (db : Option DBState) (c : Coll) (d : Doc) : Except HErr (String × DBState) :=
  match db with
  | none => Except.error (HErr.http 500 "Database not available")
  | some st => Except.ok (insertDoc st c d)

/-- Modelled from the spec: database.py `get_documents` (not under src/),
§6 — `find(collection, filter, limit)`: the documents of the collection
satisfying the filter, in store order, capped at `limit`. -/
def get_documents (st : DBState) (c : Coll) (flt : Doc → Bool) (limit : Nat) : List Doc :=
  ((getColl st c).filter flt).take limit

/-- MongoDB `update_one`: rewrites the first document satisfying the filter
and returns the new collection with the `modified_count` (0 when nothing
matched, and 0 when the matched document was left identical). -/
def updateFirstWhere (p : Doc → Bool) (f : Doc → Doc) : List Doc → List Doc × Nat
  | [] => ([], 0)
  | d :: ds =>
      if p d then (f d :: ds, if f d = d then 0 else 1)
      else
        let r := updateFirstWhere p f ds
        (d :: r.1, r.2)

/-- The filter `{"_id": ObjectId(i)}` against a stored document, `i` already
parsed and normalised. -/
def hasId (i : String) (d : Doc) : Bool :=
  getVal d "_id" = some (vStr i)

/- ===== Schemas (src/schemas.py) ===== -/

/-- src/schemas.py `TobaccoProduct` after validation: required name, sku
and price (ge 0), optional brand/category/barcode/tax_class/esl_id, stock
(ge 0, default 0), active (default true). -/
structure TobaccoProduct where
  name : String
  sku : String
  brand : Option String
  category : Option String
  barcode : Option String
  price : Rat
  tax_class : Option String
  esl_id : Option String
  stock : Option Int
  active : Bool
  deriving DecidableEq, Repr

/-- A raw JSON object submitted as a product payload, each field either
absent or bound to a well-typed value (type errors and explicit nulls are
outside the modelled input universe). -/
structure RawProduct where
  name : Option String := none
  sku : Option String := none
  brand : Option String := none
  category : Option String := none
  barcode : Option String := none
  price : Option Rat := none
  tax_class : Option String := none
  esl_id : Option String := none
  stock : Option Int := none
  active : Option Bool := none
  deriving DecidableEq, Repr

/-- Pydantic validation of `TobaccoProduct`: name, sku, price required,
price ge 0, stock ge 0 when given, defaults Tabacco / AAMS / 0 / true for
absent category, tax_class, stock, active. -/
def validateProduct (r : RawProduct) : Option TobaccoProduct :=
  match r.name, r.sku, r.price with
  | some n, some s, some p =>
      if decide (0 ≤ p) && (match r.stock with | some k => decide (0 ≤ k) | none => true) then
        some { name := n, sku := s, brand := r.brand,
               category := some (r.category.getD "Tabacco"),
               barcode := r.barcode, price := p,
               tax_class := some (r.tax_class.getD "AAMS"),
               esl_id := r.esl_id, stock := some (r.stock.getD 0),
               active := r.active.getD true }
      else none
  | _, _, _ => none

def optStr : Option String → Value
  | some s => vStr s
  | none => vNull

def optInt : Option Int → Value
  | some n => vInt n
  | none => vNull

/-- `model_dump()` of a validated product, fields in declaration order. -/
def productDoc (p : TobaccoProduct) : Doc :=
  [("name", vStr p.name), ("sku", vStr p.sku), ("brand", optStr p.brand),
   ("category", optStr p.category), ("barcode", optStr p.barcode),
   ("price", vNum p.price), ("tax_class", optStr p.tax_class),
   ("esl_id", optStr p.esl_id), ("stock", optInt p.stock),
   ("active", vBool p.active)]

/-- src/schemas.py `ProductUpdate`: every field optional; a field is `some`
exactly when the request supplied it with a non-null value (pydantic treats
an explicit null the same as absent here, because the handler filters out
`None` values after `model_dump(exclude_unset=True)`). -/
structure ProductUpdate where
  name : Option String := none
  sku : Option String := none
  brand : Option String := none
  category : Option String := none
  barcode : Option String := none
  price : Option Rat := none
  tax_class : Option String := none
  esl_id : Option String := none
  stock : Option Int := none
  active : Option Bool := none
  deriving DecidableEq, Repr

def optEntry (k : String) : Option Value → Doc
  | some v => [(k, v)]
  | none => []

/-- The handler line `{k: v for k, v in updates.model_dump(exclude_unset=True).items() if v is not None}`:
the present, non-null fields in declaration order. -/
def updatesDict (u : ProductUpdate) : Doc :=
  optEntry "name" (u.name.map vStr) ++ optEntry "sku" (u.sku.map vStr) ++
  optEntry "brand" (u.brand.map vStr) ++ optEntry "category" (u.category.map vStr) ++
  optEntry "barcode" (u.barcode.map vStr) ++ optEntry "price" (u.price.map vNum) ++
  optEntry "tax_class" (u.tax_class.map vStr) ++ optEntry "esl_id" (u.esl_id.map vStr) ++
  optEntry "stock" (u.stock.map vInt) ++ optEntry "active" (u.active.map vBool)

/-- A raw JSON object submitted as a label payload (same conventions as
`RawProduct`; `last_sync` datetimes are opaque strings). -/
structure RawLabel where
  esl_id : Option String := none
  status : Option String := none
  battery : Option Int := none
  last_sync : Option String := none
  product_sku : Option String := none
  deriving DecidableEq, Repr

/-- src/schemas.py `Label` after validation. -/
structure LabelRec where
  esl_id : String
  status : Option String
  battery : Option Int
  last_sync : Option String
  product_sku : Option String
  deriving DecidableEq, Repr

/-- Pydantic validation of `Label`: esl_id required, battery between 0 and
100 when given, status defaulting to idle. -/
def validateLabel (r : RawLabel) : Option LabelRec :=
  match r.esl_id with
  | some e =>
      if (match r.battery with | some b => decide (0 ≤ b) && decide (b ≤ 100) | none => true) then
        some { esl_id := e, status := some (r.status.getD "idle"),
               battery := r.battery, last_sync := r.last_sync,
               product_sku := r.product_sku }
      else none
  | none => none

/-- src/schemas.py `PriceUpdate` after validation: product_sku, old_price
and new_price required (prices ge 0), status defaulting to done. -/
structure PriceUpdate where
  product_sku : String
  old_price : Rat
  new_price : Rat
  scheduled_at : Option String
  status : String
  note : Option String
  deriving DecidableEq, Repr

/-- `model_dump()` of a validated price update, fields in declaration order. -/
def priceUpdateDoc (u : PriceUpdate) : Doc :=
  [("product_sku", vStr u.product_sku), ("old_price", vNum u.old_price),
   ("new_price", vNum u.new_price), ("scheduled_at", optStr u.scheduled_at),
   ("status", vStr u.status), ("note", optStr u.note)]

/- ===== The $regex text filter of GET /api/products ===== -/

/-- One pattern character against one subject character, under the `i`
option of `$options`: a dot matches anything, a literal matches up to
case. We model the fragment of the PCRE patterns MongoDB accepts that
consists of literal characters and the dot metacharacter. -/
def patChar (p c : Char) : Bool :=
  p = '.' || p.toLower = c.toLower

/-- Pattern matched against the front of the subject. -/
def rmatchHere : List Char → List Char → Bool
  | [], _ => true
  | _ :: _, [] => false
  | p :: ps, c :: cs => patChar p c && rmatchHere ps cs

/-- Unanchored regex search: the pattern matches at some position of the
subject, as MongoDB `$regex` does. -/
def rsearch (pat : List Char) : List Char → Bool
  | [] => rmatchHere pat []
  | c :: cs => rmatchHere pat (c :: cs) || rsearch pat cs

/-- `$regex` with `$options: "i"` applied to a stored field: a missing or
non-string field never matches. -/
def fieldRegex (q : String) (d : Doc) (k : String) : Bool :=
  match getVal d k with
  | some (vStr s) => rsearch q.data s.data
  | _ => false

/-- The filter built by `list_products`: no filter without `q` (and Python
treats an empty `q` as falsy, so it also applies no filter), else the `$or`
of the case-insensitive regex over name, brand and sku. -/
def productFilter (q : Option String) (d : Doc) : Bool :=
  match q with
  | none => true
  | some s =>
      if s.data.isEmpty then true
      else fieldRegex s d "name" || fieldRegex s d "brand" || fieldRegex s d "sku"

/-- Case-insensitive plain-substring occurrence, the relation the spec
describes the `q` filter with. -/
def smatchHere : List Char → List Char → Bool
  | [], _ => true
  | _ :: _, [] => false
  | p :: ps, c :: cs => (p.toLower = c.toLower) && smatchHere ps cs

def ssearch (pat : List Char) : List Char → Bool
  | [] => smatchHere pat []
  | c :: cs => smatchHere pat (c :: cs) || ssearch pat cs

/-- `q` occurs as a case-insensitive substring of `s`. -/
def containsCI (q s : String) : Bool :=
  ssearch q.data s.data

/-- The PCRE semantics MongoDB applies to `$regex`, on the fragment
extended with the one-or-more quantifier: a pattern character followed by
a plus sign matches one or more occurrences of that atom, a dot matches
any character, every other character is a literal (matched up to case
under the `i` option). Patterns where a plus sign does not follow an atom
are invalid in PCRE and outside the claims' inputs. The first argument is
fuel: every recursive call shrinks pattern-plus-subject, so
`pat.length + s.length + 1` fuel never runs out. -/
def pcreMatchHereF : Nat → List Char → List Char → Bool
  | 0, _, _ => false
  | _ + 1, [], _ => true
  | f + 1, p :: q :: ps, s =>
      if q = '+' then
        match s with
        | [] => false
        | c :: cs =>
            patChar p c && (pcreMatchHereF f (p :: q :: ps) cs || pcreMatchHereF f ps cs)
      else
        match s with
        | [] => false
        | c :: cs => patChar p c && pcreMatchHereF f (q :: ps) cs
  | _ + 1, _ :: [], [] => false
  | f + 1, p :: [], c :: cs => patChar p c && pcreMatchHereF f [] cs

/-- The extended-fragment pattern matched against the front of the
subject, with adequate fuel. -/
def pcreMatchHere (pat s : List Char) : Bool :=
  pcreMatchHereF (pat.length + s.length + 1) pat s

/-- Unanchored search under the extended fragment, as MongoDB `$regex`
does. -/
def pcreSearch (pat : List Char) : List Char → Bool
  | [] => pcreMatchHere pat []
  | c :: cs => pcreMatchHere pat (c :: cs) || pcreSearch pat cs

/-- The `$regex`/`$options: "i"` field test of `list_products`
(src/main.py:88-91), under the extended (literal, dot, plus) fragment of
the PCRE semantics the store really applies. -/
def fieldRegexPCRE (q : String) (d : Doc) (k : String) : Bool :=
  match getVal d k with
  | some (vStr s) => pcreSearch q.data s.data
  | _ => false

/-- The same `$or` filter built by `list_products`, under the extended
fragment. -/
def productFilterPCRE (q : Option String) (d : Doc) : Bool :=
  match q with
  | none => true
  | some s =>
      if s.data.isEmpty then true
      else fieldRegexPCRE s d "name" || fieldRegexPCRE s d "brand" || fieldRegexPCRE s d "sku"

/- ===== Handlers (src/main.py) ===== -/

/-- src/main.py `create_product`: validates against `TobaccoProduct`,
inserts the dump and answers with the identifier. -/
def create_product (db : Option DBState) (p : TobaccoProduct) : Except HErr String × Option DBState :=
  match create_document db Coll.tobaccoproduct (productDoc p) with
  | Except.error e => (Except.error e, db)
  | Except.ok (i, st) => (Except.ok i, some st)

/-- Pydantic validation of a whole `BulkProducts` payload: every item must
validate, in order, before anything else happens. -/
def validateAll : List RawProduct → Option (List TobaccoProduct)
  | [] => some []
  | r :: rest =>
      match validateProduct r, validateAll rest with
      | some p, some ps => some (p :: ps)
      | _, _ => none

/-- One step of the bulk-create loop: insert the item, collect its
identifier. -/
def bulkStep (acc : List String × DBState) (p : TobaccoProduct) : List String × DBState :=
  let (i, st1) := insertDoc acc.2 Coll.tobaccoproduct (productDoc p)
  (acc.1 ++ [i], st1)

/-- src/main.py `create_products_bulk`: pydantic validates the whole
`BulkProducts` payload before the handler body runs, so one invalid item
fails the request with a 422 and nothing is inserted; otherwise each item
is inserted in order. -/
def create_products_bulk (db : Option DBState) (raws : List RawProduct) :
    Except HErr (List String × Nat) × Option DBState :=
  match validateAll raws with
  | none => (Except.error (HErr.http 422 "request validation failed"), db)
  | some items =>
      match db with
      | none => (Except.error (HErr.http 500 "Database not available"), none)
      | some st =>
          let r := items.foldl bulkStep ([], st)
          (Except.ok (r.1, r.1.length), some r.2)

/-- The `find` issued by src/main.py `list_products`, before serialization. -/
def productsFind (st : DBState) (q : Option String) (limit : Nat) : List Doc :=
  get_documents st Coll.tobaccoproduct (productFilter q) limit

/-- src/main.py `list_products`: the filtered documents, `_id` replaced by
a string `id` field. -/
def list_products (st : DBState) (q : Option String) (limit : Nat) : List Doc :=
  (productsFind st q limit).map serializeDoc

/-- The `find` of `list_products` under the extended (literal, dot, plus)
fragment of the store's real `$regex` semantics. -/
def productsFindPCRE (st : DBState) (q : Option String) (limit : Nat) : List Doc :=
  get_documents st Coll.tobaccoproduct (productFilterPCRE q) limit

/-- src/main.py `list_products` under the extended fragment of the
store's real `$regex` semantics. -/
def list_productsPCRE (st : DBState) (q : Option String) (limit : Nat) : List Doc :=
  (productsFindPCRE st q limit).map serializeDoc

/-- src/main.py `update_product`: 500 without a store; empty effective
update set answers `{updated: 0}` before the identifier is parsed; then the
`ObjectId` parse failure is caught and re-raised as a 400; otherwise
`update_one` on `_id` applies `$set` of the effective update set. -/
def update_product (db : Option DBState) (product_id : String) (u : ProductUpdate) :
    Except HErr Nat × Option DBState :=
  match db with
  | none => (Except.error (HErr.http 500 "Database not available"), none)
  | some st =>
      let ud := updatesDict u
      if ud.isEmpty then (Except.ok 0, some st)
      else
        match oidParse product_id with
        | Except.error m => (Except.error (HErr.http 400 m), some st)
        | Except.ok i =>
            let r := updateFirstWhere (hasId i) (applySet ud) st.tobaccoproduct
            (Except.ok r.2, some { st with tobaccoproduct := r.1 })

/-- src/main.py `update_label`: 500 without a store; the payload is an
arbitrary object applied by `$set` with no schema validation; the
`ObjectId` parse is NOT wrapped in a try, so a malformed identifier raises
an uncaught `InvalidId`, which the framework surfaces as a 500. -/
def update_label (db : Option DBState) (label_id : String) (payload : Doc) :
    Except HErr Nat × Option DBState :=
  match db with
  | none => (Except.error (HErr.http 500 "Database not available"), none)
  | some st =>
      match oidParse label_id with
      | Except.error m => (Except.error (HErr.unhandled m), some st)
      | Except.ok i =>
          let r := updateFirstWhere (hasId i) (applySet payload) st.label
          (Except.ok r.2, some { st with label := r.1 })

/-- The filter `{"sku": s}` against a stored document. -/
def skuFilter (s : String) (d : Doc) : Bool :=
  getVal d "sku" = some (vStr s)

/-- The modification `{"$set": {"price": p}}` applied to one document. -/
def priceSet (p : Rat) (d : Doc) : Doc :=
  setVal d "price" (vNum p)

/-- src/main.py `create_price_update`: inserts the price-update record
first; then, since `db` is truthy and `new_price` is a required field of
the schema (`update.new_price is not None` always holds after validation),
issues `update_one({"sku": product_sku}, {"$set": {"price": new_price}})`
on the product collection, ignoring its matched count. -/
def create_price_update (db : Option DBState) (u : PriceUpdate) :
    Except HErr String × Option DBState :=
  match create_document db Coll.priceupdate (priceUpdateDoc u) with
  | Except.error e => (Except.error e, db)
  | Except.ok (i, st1) =>
      let r := updateFirstWhere (skuFilter u.product_sku) (priceSet u.new_price) st1.tobaccoproduct
      (Except.ok i, some { st1 with tobaccoproduct := r.1 })

/-- The response object of GET /test. -/
structure TestResponse where
  backend : String
  database : String
  database_url : Option String
  database_name : Option String
  connection_status : String
  collections : List String
  deriving DecidableEq, Repr

/-- src/main.py `test_database`: builds a degraded default response, then
best-effort fills it in; the connectivity probe (`list_collection_names`)
outcome is passed in as data, and a probe failure is caught and embedded
with its message cut to 50 characters. Every raise site of the body is
inside a try, so the handler never answers with an error. -/
def test_database (db : Option DBState) (urlSet : Bool) (dbName : Option String)
    (probe : Except String (List String)) : Except HErr TestResponse :=
  match db with
  | some _ =>
      match probe with
      | Except.ok cs =>
          Except.ok { backend := "✅ Running", database := "✅ Connected & Working",
                      database_url := some (if urlSet then "✅ Set" else "❌ Not Set"),
                      database_name := some (dbName.getD "✅ Connected"),
                      connection_status := "Connected", collections := cs.take 10 }
      | Except.error e =>
          Except.ok { backend := "✅ Running",
                      database := "⚠️  Connected but Error: " ++ takeChars 50 e,
                      database_url := some (if urlSet then "✅ Set" else "❌ Not Set"),
                      database_name := some (dbName.getD "✅ Connected"),
                      connection_status := "Connected", collections := [] }
  | none =>
      Except.ok { backend := "✅ Running", database := "⚠️  Available but not initialized",
                  database_url := none, database_name := none,
                  connection_status := "Not Connected", collections := [] }

/-- The identifiers `insert` assigns to a run of `k` consecutive inserts
starting from counter value `n`. -/
def bulkIds : Nat → Nat → List String
  | _, 0 => []
  | n, k + 1 => genId n :: bulkIds (n + 1) k

/-- The stored documents a run of consecutive product inserts appends,
starting from counter value `n`. -/
def bulkDocs : Nat → List TobaccoProduct → List Doc
  | _, [] => []
  | n, p :: rest => (("_id", vStr (genId n)) :: productDoc p) :: bulkDocs (n + 1) rest

/- ===== Lemmas about the document and store model ===== -/

theorem getVal_setVal_self (d : Doc) (k : String) (v : Value) :
    getVal (setVal d k v) k = some v := by
  induction d with
  | nil => simp [setVal, getVal]
  | cons hd tl ih =>
      obtain ⟨k0, v0⟩ := hd
      by_cases h : k0 = k
      · simp [setVal, h, getVal]
      · simp [setVal, h, getVal, ih]

theorem getVal_setVal_ne (d : Doc) (k k0 : String) (v : Value) (h : k0 ≠ k) :
    getVal (setVal d k v) k0 = getVal d k0 := by
  induction d with
  | nil => simp [setVal, getVal, Ne.symm h]
  | cons hd tl ih =>
      obtain ⟨k1, v1⟩ := hd
      by_cases h1 : k1 = k
      · subst h1
        simp [setVal, getVal, Ne.symm h]
      · simp [setVal, h1, getVal, ih]

theorem applySet_cons (k : String) (v : Value) (tl : Doc) (d : Doc) :
    applySet ((k, v) :: tl) d = applySet tl (setVal d k v) := rfl

theorem getVal_applySet_not_mem (pairs : Doc) (d : Doc) (k : String)
    (h : k ∉ pairs.map Prod.fst) : getVal (applySet pairs d) k = getVal d k := by
  induction pairs generalizing d with
  | nil => rfl
  | cons hd tl ih =>
      obtain ⟨k0, v0⟩ := hd
      have hk : k ≠ k0 := by
        intro hh
        exact h (by simp [hh])
      have htl : k ∉ tl.map Prod.fst := by
        intro hh
        exact h (by simp [hh])
      rw [applySet_cons, ih _ htl, getVal_setVal_ne _ _ _ _ hk]

theorem getVal_applySet_mem (pairs : Doc) (d : Doc) (k : String) (v : Value)
    (hnd : (pairs.map Prod.fst).Nodup) (hm : (k, v) ∈ pairs) :
    getVal (applySet pairs d) k = some v := by
  induction pairs generalizing d with
  | nil => cases hm
  | cons hd tl ih =>
      obtain ⟨k0, v0⟩ := hd
      rw [applySet_cons]
      rcases List.mem_cons.mp hm with heq | htl
      · injection heq with hk hv
        subst hk
        subst hv
        have hk0 : k ∉ tl.map Prod.fst := by
          have := hnd
          simp only [List.map_cons, List.nodup_cons] at this
          exact this.1
        rw [getVal_applySet_not_mem _ _ _ hk0, getVal_setVal_self]
      · have hnd' : (tl.map Prod.fst).Nodup := by
          simp only [List.map_cons, List.nodup_cons] at hnd
          exact hnd.2
        exact ih _ hnd' htl

theorem updateFirstWhere_not_matched (p : Doc → Bool) (f : Doc → Doc) (l : List Doc)
    (h : ∀ d ∈ l, p d = false) : updateFirstWhere p f l = (l, 0) := by
  induction l with
  | nil => rfl
  | cons d ds ih =>
      have hd : p d = false := h d (by simp)
      simp only [updateFirstWhere, hd, Bool.false_eq_true, if_false]
      rw [ih (fun x hx => h x (by simp [hx]))]

theorem updateFirstWhere_split (p : Doc → Bool) (f : Doc → Doc)
    (pre : List Doc) (d : Doc) (post : List Doc)
    (hpre : ∀ x ∈ pre, p x = false) (hd : p d = true) :
    updateFirstWhere p f (pre ++ d :: post) =
      (pre ++ f d :: post, if f d = d then 0 else 1) := by
  induction pre with
  | nil => simp [updateFirstWhere, hd]
  | cons x xs ih =>
      have hx : p x = false := hpre x (by simp)
      simp only [List.cons_append, updateFirstWhere, hx, Bool.false_eq_true, if_false,
        List.append_eq]
      rw [ih (fun y hy => hpre y (by simp [hy]))]

theorem rmatchHere_refl (l : List Char) : rmatchHere l l = true := by
  induction l with
  | nil => rfl
  | cons c cs ih => simp [rmatchHere, patChar, ih]

theorem rsearch_refl (l : List Char) : rsearch l l = true := by
  cases l with
  | nil => rfl
  | cons c cs => simp [rsearch, rmatchHere_refl]

theorem rmatchHere_eq_smatchHere (pat : List Char) (h : ∀ c ∈ pat, c ≠ '.') :
    ∀ s, rmatchHere pat s = smatchHere pat s := by
  induction pat with
  | nil => intro s; rfl
  | cons p ps ih =>
      intro s
      cases s with
      | nil => rfl
      | cons c cs =>
          have hp : p ≠ '.' := h p (by simp)
          simp [rmatchHere, smatchHere, patChar, hp,
            ih (fun x hx => h x (by simp [hx]))]

theorem rsearch_eq_ssearch (pat : List Char) (h : ∀ c ∈ pat, c ≠ '.') :
    ∀ s, rsearch pat s = ssearch pat s := by
  intro s
  induction s with
  | nil => simp [rsearch, ssearch, rmatchHere_eq_smatchHere pat h]
  | cons c cs ih => simp [rsearch, ssearch, rmatchHere_eq_smatchHere pat h, ih]

theorem pcreMatchHereF_eq_rmatchHere (f : Nat) :
    ∀ pat s, pat.length + s.length < f → (∀ c ∈ pat, c ≠ '+') →
      pcreMatchHereF f pat s = rmatchHere pat s := by
  induction f with
  | zero =>
      intro pat s hf _
      exact absurd hf (Nat.not_lt_zero _)
  | succ f ih =>
      intro pat s hf h
      cases pat with
      | nil => rfl
      | cons p ps =>
          cases ps with
          | nil =>
              cases s with
              | nil => rfl
              | cons c cs =>
                  have h1 := ih [] cs
                    (by simp only [List.length_cons, List.length_nil] at hf ⊢; omega)
                    (by simp)
                  show (patChar p c && pcreMatchHereF f [] cs) =
                    (patChar p c && rmatchHere [] cs)
                  rw [h1]
          | cons q ps2 =>
              have hq : q ≠ '+' := h q (by simp)
              cases s with
              | nil => simp [pcreMatchHereF, hq, rmatchHere]
              | cons c cs =>
                  have h1 := ih (q :: ps2) cs
                    (by simp only [List.length_cons] at hf ⊢; omega)
                    (fun x hx => h x (List.mem_cons_of_mem _ hx))
                  simp [pcreMatchHereF, hq, rmatchHere, h1]

theorem pcreMatchHere_eq_rmatchHere (pat s : List Char) (h : ∀ c ∈ pat, c ≠ '+') :
    pcreMatchHere pat s = rmatchHere pat s :=
  pcreMatchHereF_eq_rmatchHere _ pat s (Nat.lt_succ_self _) h

theorem pcreSearch_eq_rsearch (pat : List Char) (h : ∀ c ∈ pat, c ≠ '+') :
    ∀ s, pcreSearch pat s = rsearch pat s := by
  intro s
  induction s with
  | nil => simp [pcreSearch, rsearch, pcreMatchHere_eq_rmatchHere pat [] h]
  | cons c cs ih => simp [pcreSearch, rsearch, pcreMatchHere_eq_rmatchHere pat _ h, ih]

/-- A freshly inserted product document passes its own sku as query under
the extended fragment, provided the sku is free of the plus quantifier. -/
theorem productFilterPCRE_inserted_self (p : TobaccoProduct) (v : Value)
    (h : ∀ c ∈ p.sku.data, c ≠ '+') :
    productFilterPCRE (some p.sku) (("_id", v) :: productDoc p) = true := by
  by_cases hq : p.sku.data.isEmpty
  · simp [productFilterPCRE, hq]
  · simp [productFilterPCRE, hq, fieldRegexPCRE, getVal, productDoc,
      pcreSearch_eq_rsearch _ h, rsearch_refl]

theorem genId_data_ne_nil (n : Nat) : (genId n).data ≠ [] := by
  show List.replicate (24 - (Nat.toDigits 16 n).length) '0' ++ Nat.toDigits 16 n ≠ []
  cases h : Nat.toDigits 16 n with
  | nil => simp
  | cons c cs => simp

/-- Serialization of a freshly inserted document: `_id` is removed and the
string `id` appended. -/
theorem serializeDoc_inserted (i : String) (d : Doc) (hne : i.data ≠ []) :
    serializeDoc (("_id", vStr i) :: d) = d ++ [("id", vStr i)] := by
  simp [serializeDoc, getVal, delVal, vTruthy, vToString, hne]

theorem optEntry_keys_sublist (k : String) (v : Option Value) :
    ((optEntry k v).map Prod.fst).Sublist [k] := by
  cases v with
  | none => exact List.nil_sublist _
  | some x =>
      simp only [optEntry, List.map_cons, List.map_nil]
      exact List.Sublist.refl _

theorem updatesDict_keys_nodup (u : ProductUpdate) :
    ((updatesDict u).map Prod.fst).Nodup := by
  have hs : ((updatesDict u).map Prod.fst).Sublist
      (["name"] ++ ["sku"] ++ ["brand"] ++ ["category"] ++ ["barcode"] ++ ["price"] ++
        ["tax_class"] ++ ["esl_id"] ++ ["stock"] ++ ["active"]) := by
    simp only [updatesDict, List.map_append]
    exact ((((((((((optEntry_keys_sublist _ _).append
      (optEntry_keys_sublist _ _)).append (optEntry_keys_sublist _ _)).append
      (optEntry_keys_sublist _ _)).append (optEntry_keys_sublist _ _)).append
      (optEntry_keys_sublist _ _)).append (optEntry_keys_sublist _ _)).append
      (optEntry_keys_sublist _ _)).append (optEntry_keys_sublist _ _)).append
      (optEntry_keys_sublist _ _))
  exact List.Nodup.sublist hs (by decide)

theorem validateAll_none (raws : List RawProduct) (r : RawProduct)
    (hr : r ∈ raws) (h : validateProduct r = none) :
    validateAll raws = none := by
  induction raws with
  | nil => cases hr
  | cons a tl ih =>
      rcases List.mem_cons.mp hr with rfl | htl
      · cases hva : validateAll tl <;> simp [validateAll, h, hva]
      · cases ha : validateProduct a <;> simp [validateAll, ha, ih htl]

theorem validateAll_length (raws : List RawProduct) (items : List TobaccoProduct)
    (h : validateAll raws = some items) : items.length = raws.length := by
  induction raws generalizing items with
  | nil =>
      simp only [validateAll, Option.some.injEq] at h
      subst h
      rfl
  | cons a tl ih =>
      cases ha : validateProduct a with
      | none => simp [validateAll, ha] at h
      | some p =>
          cases htl : validateAll tl with
          | none => simp [validateAll, ha, htl] at h
          | some ps =>
              simp only [validateAll, ha, htl, Option.some.injEq] at h
              subst h
              simp [ih ps htl]

theorem bulk_foldl (items : List TobaccoProduct) (acc : List String) (st : DBState) :
    items.foldl bulkStep (acc, st) =
      (acc ++ bulkIds st.nextId items.length,
       { st with tobaccoproduct := st.tobaccoproduct ++ bulkDocs st.nextId items,
                 nextId := st.nextId + items.length }) := by
  induction items generalizing acc st with
  | nil => simp [bulkIds, bulkDocs]
  | cons p rest ih =>
      rw [List.foldl_cons]
      have hstep : bulkStep (acc, st) p =
          (acc ++ [genId st.nextId],
           { st with
             tobaccoproduct := st.tobaccoproduct ++ [("_id", vStr (genId st.nextId)) :: productDoc p],
             nextId := st.nextId + 1 }) := rfl
      rw [hstep, ih]
      simp [bulkIds, bulkDocs, List.append_assoc]
      omega

theorem bulkIds_length (n k : Nat) : (bulkIds n k).length = k := by
  induction k generalizing n with
  | zero => rfl
  | succ m ih => simp [bulkIds, ih]

/-- Evaluation of `update_product` when the update set is non-empty and the
identifier parses. -/
theorem update_product_eval (st : DBState) (pid : String) (u : ProductUpdate)
    (hne : (updatesDict u).isEmpty = false) (hoid : isValidOid pid = true) :
    update_product (some st) pid u =
      (Except.ok (updateFirstWhere (hasId (lowerStr pid)) (applySet (updatesDict u)) st.tobaccoproduct).2,
       some { st with
              tobaccoproduct :=
                (updateFirstWhere (hasId (lowerStr pid)) (applySet (updatesDict u)) st.tobaccoproduct).1 }) := by
  simp [update_product, hne, oidParse, hoid]

/-- Evaluation of `update_label` when the identifier parses. -/
theorem update_label_eval (st : DBState) (lid : String) (payload : Doc)
    (hoid : isValidOid lid = true) :
    update_label (some st) lid payload =
      (Except.ok (updateFirstWhere (hasId (lowerStr lid)) (applySet payload) st.label).2,
       some { st with
              label := (updateFirstWhere (hasId (lowerStr lid)) (applySet payload) st.label).1 }) := by
  simp [update_label, oidParse, hoid]

/- ===== Claim theorems ===== -/

/-- C1: an accepted POST /api/price-updates with the store available first
inserts the price-update record and answers `{id}`; it then issues one
`update_one` on the product collection that sets the price of the first
product whose sku equals `product_sku` to `new_price`, and when no product
matches that sku the write matches zero documents, the products are
unchanged and the request still succeeds with the record created. -/
theorem create_price_update_behavior (st : DBState) (u : PriceUpdate) :
    create_price_update (some st) u =
      (Except.ok (genId st.nextId),
       some { st with
              tobaccoproduct :=
                (updateFirstWhere (skuFilter u.product_sku) (priceSet u.new_price) st.tobaccoproduct).1,
              priceupdate := st.priceupdate ++ [("_id", vStr (genId st.nextId)) :: priceUpdateDoc u],
              nextId := st.nextId + 1 }) ∧
    ((∀ d ∈ st.tobaccoproduct, skuFilter u.product_sku d = false) →
      (updateFirstWhere (skuFilter u.product_sku) (priceSet u.new_price) st.tobaccoproduct).1 =
        st.tobaccoproduct) ∧
    (∀ pre d post, st.tobaccoproduct = pre ++ d :: post →
      (∀ x ∈ pre, skuFilter u.product_sku x = false) → skuFilter u.product_sku d = true →
      (updateFirstWhere (skuFilter u.product_sku) (priceSet u.new_price) st.tobaccoproduct).1 =
        pre ++ priceSet u.new_price d :: post ∧
      getVal (priceSet u.new_price d) "price" = some (vNum u.new_price)) := by
  refine ⟨?_, ?_, ?_⟩
  · simp [create_price_update, create_document, insertDoc, setColl, getColl]
  · intro h
    rw [updateFirstWhere_not_matched _ _ _ h]
  · intro pre d post hsplit hpre hd
    rw [hsplit, updateFirstWhere_split _ _ _ _ _ hpre hd]
    exact ⟨rfl, getVal_setVal_self _ _ _⟩

/-- C1 witness: a store holding one product with sku X1; the price write
patches it to 25/2. -/
theorem create_price_update_behavior_witness :
    (updateFirstWhere (skuFilter "X1") (priceSet (25/2))
        [[("_id", vStr "aaaaaaaaaaaaaaaaaaaaaaaa"), ("sku", vStr "X1"), ("price", vNum 5)]]).1 =
      [] ++ priceSet (25/2) [("_id", vStr "aaaaaaaaaaaaaaaaaaaaaaaa"), ("sku", vStr "X1"), ("price", vNum 5)] :: [] ∧
    getVal (priceSet (25/2) [("_id", vStr "aaaaaaaaaaaaaaaaaaaaaaaa"), ("sku", vStr "X1"), ("price", vNum 5)]) "price" =
      some (vNum (25/2)) :=
  (create_price_update_behavior
      ⟨[[("_id", vStr "aaaaaaaaaaaaaaaaaaaaaaaa"), ("sku", vStr "X1"), ("price", vNum 5)]], [], [], 1⟩
      ⟨"X1", 5, 25/2, none, "done", none⟩).2.2
    [] [("_id", vStr "aaaaaaaaaaaaaaaaaaaaaaaa"), ("sku", vStr "X1"), ("price", vNum 5)] []
    rfl (by simp) (by decide)

/-- C2 counterexample: a PATCH /api/products/{id} with a malformed
identifier and an empty effective field set answers 200 `{updated: 0}`,
not 400, because the empty-set check runs before the identifier parse. -/
theorem update_product_malformed_id_counterexample :
    isValidOid "bad-id" = false ∧
      update_product (some {}) "bad-id" {} = (Except.ok 0, some {}) :=
  ⟨by decide, rfl⟩

/-- C2 (amended): a PATCH /api/products/{id} with a malformed identifier
fails with HTTP 400 and mutates nothing PROVIDED the effective update set
is non-empty (otherwise it answers 200 `{updated: 0}` without parsing the
identifier), and with the store handle unavailable every such request
fails with HTTP 500. -/
theorem update_product_malformed_id_amended (st : DBState) (pid : String) (u : ProductUpdate)
    (hbad : isValidOid pid = false) (hne : updatesDict u ≠ []) :
    update_product (some st) pid u =
      (Except.error (HErr.http 400 (invalidIdMsg pid)), some st) ∧
    (∀ pid2 u2, update_product none pid2 u2 =
      (Except.error (HErr.http 500 "Database not available"), none)) := by
  constructor
  · have hne' : (updatesDict u).isEmpty = false := by
      cases hud : updatesDict u with
      | nil => exact absurd hud hne
      | cons a b => rfl
    simp [update_product, hne', oidParse, hbad]
  · intro pid2 u2
    rfl

/-- C2 witness for the amended claim. -/
theorem update_product_malformed_id_amended_witness :
    isValidOid "bad" = false ∧ updatesDict { price := some 1 } ≠ [] ∧
      (update_product (some {}) "bad" { price := some 1 } =
          (Except.error (HErr.http 400 (invalidIdMsg "bad")), some {}) ∧
        (∀ pid2 u2, update_product none pid2 u2 =
          (Except.error (HErr.http 500 "Database not available"), none))) :=
  ⟨by decide, by decide,
    update_product_malformed_id_amended {} "bad" { price := some 1 } (by decide) (by decide)⟩

/-- C3 counterexample: a PATCH /api/labels/{id} with a malformed identifier
does not fail with 400: the uncaught `InvalidId` surfaces as a 500. -/
theorem update_label_malformed_id_counterexample :
    isValidOid "bad" = false ∧
      update_label (some {}) "bad" [("status", vStr "error")] =
        (Except.error (HErr.unhandled (invalidIdMsg "bad")), some {}) ∧
      HErr.statusCode (HErr.unhandled (invalidIdMsg "bad")) = 500 ∧ (500 : Nat) ≠ 400 :=
  ⟨by decide, rfl, rfl, by decide⟩

/-- C3 (amended): unlike the product path, PATCH /api/labels/{id} has no
try/except around the identifier parse, so a malformed identifier raises
an uncaught `InvalidId` surfaced as HTTP 500 (not an InvalidArgument 400),
and no stored record is mutated. -/
theorem update_label_malformed_id_amended (st : DBState) (lid : String) (payload : Doc)
    (hbad : isValidOid lid = false) :
    update_label (some st) lid payload =
      (Except.error (HErr.unhandled (invalidIdMsg lid)), some st) ∧
    HErr.statusCode (HErr.unhandled (invalidIdMsg lid)) = 500 := by
  constructor
  · simp [update_label, oidParse, hbad]
  · rfl

/-- C3 witness for the amended claim. -/
theorem update_label_malformed_id_amended_witness :
    isValidOid "xyz" = false ∧
      (update_label (some {}) "xyz" [("battery", vInt 150)] =
          (Except.error (HErr.unhandled (invalidIdMsg "xyz")), some {}) ∧
        HErr.statusCode (HErr.unhandled (invalidIdMsg "xyz")) = 500) :=
  ⟨by decide, update_label_malformed_id_amended {} "xyz" [("battery", vInt 150)] (by decide)⟩

/-- C10: for every identifier string whatsoever, malformed ones included, a
PATCH /api/products/{id} whose body fields are all absent or null answers
200 `{updated: 0}` before the identifier is parsed and before any store
operation, leaving the store untouched. -/
theorem update_product_empty_body_short_circuit (st : DBState) (pid : String) (u : ProductUpdate)
    (h : updatesDict u = []) :
    update_product (some st) pid u = (Except.ok 0, some st) := by
  simp [update_product, h]

/-- C10 witness: a malformed identifier with an all-absent body. -/
theorem update_product_empty_body_short_circuit_witness :
    updatesDict ({} : ProductUpdate) = [] ∧ isValidOid "zz" = false ∧
      update_product (some {}) "zz" {} = (Except.ok 0, some {}) :=
  ⟨rfl, by decide, update_product_empty_body_short_circuit {} "zz" {} rfl⟩

/-- C4: POST /api/products/bulk validates the whole batch up front — one
invalid item fails the request before any insert, leaving the store
untouched; a batch of N valid items performs exactly N inserts in order and
answers the N assigned identifiers with count N. -/
theorem create_products_bulk_all_or_nothing (db : Option DBState) (st : DBState)
    (raws : List RawProduct) :
    ((∃ r ∈ raws, validateProduct r = none) →
        create_products_bulk db raws =
          (Except.error (HErr.http 422 "request validation failed"), db)) ∧
    (∀ items, validateAll raws = some items →
        create_products_bulk (some st) raws =
          (Except.ok (bulkIds st.nextId items.length, items.length),
           some { st with
                  tobaccoproduct := st.tobaccoproduct ++ bulkDocs st.nextId items,
                  nextId := st.nextId + items.length }) ∧
        (bulkIds st.nextId items.length).length = items.length ∧
        items.length = raws.length) := by
  constructor
  · rintro ⟨r, hr, hnone⟩
    simp [create_products_bulk, validateAll_none raws r hr hnone]
  · intro items hv
    refine ⟨?_, bulkIds_length _ _, validateAll_length raws items hv⟩
    simp only [create_products_bulk, hv]
    rw [bulk_foldl]
    simp [bulkIds_length]

/-- C4 witness: one invalid item (negative price) aborts the whole request
with nothing persisted. -/
theorem create_products_bulk_all_or_nothing_witness :
    (∃ r ∈ [({ name := some "A", sku := some "S", price := some (-1) } : RawProduct)],
        validateProduct r = none) ∧
      create_products_bulk (some ({} : DBState))
          [{ name := some "A", sku := some "S", price := some (-1) }] =
        (Except.error (HErr.http 422 "request validation failed"), some {}) :=
  ⟨⟨{ name := some "A", sku := some "S", price := some (-1) }, by simp, by decide⟩,
    (create_products_bulk_all_or_nothing (some {}) {}
        [{ name := some "A", sku := some "S", price := some (-1) }]).1
      ⟨{ name := some "A", sku := some "S", price := some (-1) }, by simp, by decide⟩⟩

/-- C5 counterexample: the stored product `{name: "abc", sku: "zz"}` (no
brand) is returned for `q = "a.c"` although "a.c" is not a case-insensitive
substring of its name, brand or sku — `q` is a regex pattern, not a plain
substring. -/
theorem list_products_regex_counterexample :
    productsFind
        ⟨[[("_id", vStr "507f1f77bcf86cd799439011"), ("name", vStr "abc"), ("sku", vStr "zz")]],
          [], [], 1⟩ (some "a.c") 100 =
      [[("_id", vStr "507f1f77bcf86cd799439011"), ("name", vStr "abc"), ("sku", vStr "zz")]] ∧
    containsCI "a.c" "abc" = false ∧ containsCI "a.c" "zz" = false ∧
    getVal [("_id", vStr "507f1f77bcf86cd799439011"), ("name", vStr "abc"), ("sku", vStr "zz")]
        "name" = some (vStr "abc") ∧
    getVal [("_id", vStr "507f1f77bcf86cd799439011"), ("name", vStr "abc"), ("sku", vStr "zz")]
        "brand" = none ∧
    getVal [("_id", vStr "507f1f77bcf86cd799439011"), ("name", vStr "abc"), ("sku", vStr "zz")]
        "sku" = some (vStr "zz") :=
  ⟨by decide, by decide, by decide, by decide, by decide, by decide⟩

/-- C5 (amended): a stored product is returned for a non-empty `q` iff `q`,
interpreted as a case-insensitive regular-expression pattern (modelled on
its literal-and-dot fragment), matches somewhere inside its name, brand or
sku, subject to the limit cap; for `q` free of regex metacharacters this
coincides with plain case-insensitive substring search. -/
theorem list_products_q_is_regex (st : DBState) (q : String) (limit : Nat)
    (hcount : (st.tobaccoproduct.filter (productFilter (some q))).length ≤ limit) :
    (∀ d, d ∈ productsFind st (some q) limit ↔
        d ∈ st.tobaccoproduct ∧ productFilter (some q) d = true) ∧
    ((∀ c ∈ q.data, c ≠ '.') → ∀ s : String, rsearch q.data s.data = containsCI q s) := by
  constructor
  · intro d
    show d ∈ (st.tobaccoproduct.filter (productFilter (some q))).take limit ↔ _
    rw [List.take_of_length_le hcount]
    exact List.mem_filter
  · intro h s
    rw [rsearch_eq_ssearch q.data h s.data]
    rfl

/-- C5 witness for the amended claim. -/
theorem list_products_q_is_regex_witness :
    (∀ d, d ∈ productsFind
        ⟨[[("_id", vStr "aaaaaaaaaaaaaaaaaaaaaaaa"), ("name", vStr "Marlboro"), ("sku", vStr "MG20")]],
          [], [], 1⟩ (some "mar") 100 ↔
        d ∈ [[("_id", vStr "aaaaaaaaaaaaaaaaaaaaaaaa"), ("name", vStr "Marlboro"), ("sku", vStr "MG20")]] ∧
          productFilter (some "mar") d = true) ∧
    ((∀ c ∈ "mar".data, c ≠ '.') → ∀ s : String, rsearch "mar".data s.data = containsCI "mar" s) :=
  list_products_q_is_regex
    ⟨[[("_id", vStr "aaaaaaaaaaaaaaaaaaaaaaaa"), ("name", vStr "Marlboro"), ("sku", vStr "MG20")]],
      [], [], 1⟩ "mar" 100 (by decide)

/-- C9: GET /test always answers a response value, for every store-handle
state and every probe outcome; a probe failure is caught and embedded in
the response body with its message truncated to at most 50 characters. -/
theorem test_database_never_raises (db : Option DBState) (urlSet : Bool)
    (nm : Option String) (probe : Except String (List String)) :
    (∃ r, test_database db urlSet nm probe = Except.ok r) ∧
    (∀ st e, db = some st → probe = Except.error e →
      ∃ r, test_database db urlSet nm probe = Except.ok r ∧
        r.database = "⚠️  Connected but Error: " ++ takeChars 50 e ∧
        (takeChars 50 e).length ≤ 50) := by
  constructor
  · cases db with
    | none => exact ⟨_, rfl⟩
    | some st =>
        cases probe with
        | ok cs => exact ⟨_, rfl⟩
        | error e => exact ⟨_, rfl⟩
  · intro st e hdb hp
    subst hdb
    subst hp
    refine ⟨_, rfl, rfl, ?_⟩
    show (e.data.take 50).length ≤ 50
    rw [List.length_take]
    exact min_le_left _ _

/-- C9 witness: a 56-character probe error is embedded truncated. -/
theorem test_database_never_raises_witness :
    ∃ r, test_database (some {}) false none
        (Except.error "connection refused while probing the document store 1234") = Except.ok r ∧
      r.database = "⚠️  Connected but Error: " ++
        takeChars 50 "connection refused while probing the document store 1234" ∧
      (takeChars 50 "connection refused while probing the document store 1234").length ≤ 50 :=
  (test_database_never_raises (some {}) false none
      (Except.error "connection refused while probing the document store 1234")).2
    {} "connection refused while probing the document store 1234" rfl rfl

/-- C6: PATCH /api/products/{id} writes exactly the present, non-null body
fields over the stored record's corresponding fields, leaves every other
stored field unchanged, and when every field is absent or null it is a
no-op answering `{updated: 0}` with the store untouched. -/
theorem update_product_partial_update_semantics (st : DBState) (pid : String)
    (u : ProductUpdate) (pre : List Doc) (d : Doc) (post : List Doc)
    (hoid : isValidOid pid = true) (hnorm : lowerStr pid = pid)
    (hsplit : st.tobaccoproduct = pre ++ d :: post)
    (hpre : ∀ x ∈ pre, hasId pid x = false) (hd : hasId pid d = true) :
    (updatesDict u = [] → update_product (some st) pid u = (Except.ok 0, some st)) ∧
    (updatesDict u ≠ [] →
      update_product (some st) pid u =
        (Except.ok (if applySet (updatesDict u) d = d then 0 else 1),
         some { st with tobaccoproduct := pre ++ applySet (updatesDict u) d :: post }) ∧
      (∀ k v, (k, v) ∈ updatesDict u → getVal (applySet (updatesDict u) d) k = some v) ∧
      (∀ k, k ∉ (updatesDict u).map Prod.fst →
        getVal (applySet (updatesDict u) d) k = getVal d k)) := by
  constructor
  · intro h
    simp [update_product, h]
  · intro hne
    have hne' : (updatesDict u).isEmpty = false := by
      cases hud : updatesDict u with
      | nil => exact absurd hud hne
      | cons a b => rfl
    refine ⟨?_, ?_, ?_⟩
    · rw [update_product_eval st pid u hne' hoid, hnorm, hsplit,
        updateFirstWhere_split (hasId pid) (applySet (updatesDict u)) pre d post hpre hd]
    · intro k v hm
      exact getVal_applySet_mem _ _ _ _ (updatesDict_keys_nodup u) hm
    · intro k hk
      exact getVal_applySet_not_mem _ _ _ hk

/-- C6 witness: setting only the price leaves the name untouched. -/
theorem update_product_partial_update_semantics_witness :
    updatesDict ({ price := some (13) } : ProductUpdate) ≠ [] ∧
    getVal (applySet (updatesDict ({ price := some (13) } : ProductUpdate))
        [("_id", vStr "aaaaaaaaaaaaaaaaaaaaaaaa"), ("name", vStr "Old"), ("price", vNum 5)])
      "price" = some (vNum (13)) ∧
    getVal (applySet (updatesDict ({ price := some (13) } : ProductUpdate))
        [("_id", vStr "aaaaaaaaaaaaaaaaaaaaaaaa"), ("name", vStr "Old"), ("price", vNum 5)])
      "name" =
      getVal [("_id", vStr "aaaaaaaaaaaaaaaaaaaaaaaa"), ("name", vStr "Old"), ("price", vNum 5)]
        "name" :=
  ⟨by decide,
    ((update_product_partial_update_semantics
        ⟨[[("_id", vStr "aaaaaaaaaaaaaaaaaaaaaaaa"), ("name", vStr "Old"), ("price", vNum 5)]],
          [], [], 1⟩
        "aaaaaaaaaaaaaaaaaaaaaaaa" { price := some (13) }
        [] [("_id", vStr "aaaaaaaaaaaaaaaaaaaaaaaa"), ("name", vStr "Old"), ("price", vNum 5)] []
        (by decide) (by decide) rfl (by simp) (by decide)).2 (by decide)).2.1
      "price" (vNum (13)) (by simp [updatesDict, optEntry]),
    ((update_product_partial_update_semantics
        ⟨[[("_id", vStr "aaaaaaaaaaaaaaaaaaaaaaaa"), ("name", vStr "Old"), ("price", vNum 5)]],
          [], [], 1⟩
        "aaaaaaaaaaaaaaaaaaaaaaaa" { price := some (13) }
        [] [("_id", vStr "aaaaaaaaaaaaaaaaaaaaaaaa"), ("name", vStr "Old"), ("price", vNum 5)] []
        (by decide) (by decide) rfl (by simp) (by decide)).2 (by decide)).2.2
      "name" (by simp [updatesDict, optEntry])⟩

/-- C8: PATCH /api/labels/{id} with a valid identifier applies an arbitrary
unvalidated JSON object verbatim over the first matching stored label —
every key-value pair of the payload is written as given, including values
the creation schema would reject (battery 150 in particular). -/
theorem update_label_unvalidated_passthrough (st : DBState) (lid : String) (payload : Doc)
    (pre : List Doc) (d : Doc) (post : List Doc)
    (hoid : isValidOid lid = true) (hnorm : lowerStr lid = lid)
    (hsplit : st.label = pre ++ d :: post)
    (hpre : ∀ x ∈ pre, hasId lid x = false) (hd : hasId lid d = true)
    (hnd : (payload.map Prod.fst).Nodup) :
    update_label (some st) lid payload =
      (Except.ok (if applySet payload d = d then 0 else 1),
       some { st with label := pre ++ applySet payload d :: post }) ∧
    (∀ k v, (k, v) ∈ payload → getVal (applySet payload d) k = some v) ∧
    (∀ rl : RawLabel, rl.battery = some 150 → validateLabel rl = none) := by
  refine ⟨?_, ?_, ?_⟩
  · rw [update_label_eval st lid payload hoid, hnorm, hsplit,
      updateFirstWhere_split (hasId lid) (applySet payload) pre d post hpre hd]
  · intro k v hm
    exact getVal_applySet_mem _ _ _ _ hnd hm
  · intro rl hb
    cases hre : rl.esl_id with
    | none => simp [validateLabel, hre]
    | some e => simp [validateLabel, hre, hb]

/-- C8 witness: `{"battery": 150}` is stored verbatim although the creation
schema rejects battery 150. -/
theorem update_label_unvalidated_passthrough_witness :
    getVal (applySet [("battery", vInt 150)]
        [("_id", vStr "aaaaaaaaaaaaaaaaaaaaaaaa"), ("esl_id", vStr "E1"), ("battery", vInt 90)])
      "battery" = some (vInt 150) ∧
    validateLabel { esl_id := some "E1", battery := some 150 } = none :=
  ⟨(update_label_unvalidated_passthrough
      ⟨[], [[("_id", vStr "aaaaaaaaaaaaaaaaaaaaaaaa"), ("esl_id", vStr "E1"), ("battery", vInt 90)]],
        [], 1⟩
      "aaaaaaaaaaaaaaaaaaaaaaaa" [("battery", vInt 150)]
      [] [("_id", vStr "aaaaaaaaaaaaaaaaaaaaaaaa"), ("esl_id", vStr "E1"), ("battery", vInt 90)] []
      (by decide) (by decide) rfl (by simp) (by decide) (by decide)).2.1
    "battery" (vInt 150) (by simp),
   (update_label_unvalidated_passthrough
      ⟨[], [[("_id", vStr "aaaaaaaaaaaaaaaaaaaaaaaa"), ("esl_id", vStr "E1"), ("battery", vInt 90)]],
        [], 1⟩
      "aaaaaaaaaaaaaaaaaaaaaaaa" [("battery", vInt 150)]
      [] [("_id", vStr "aaaaaaaaaaaaaaaaaaaaaaaa"), ("esl_id", vStr "E1"), ("battery", vInt 90)] []
      (by decide) (by decide) rfl (by simp) (by decide) (by decide)).2.2
    { esl_id := some "E1", battery := some 150 } rfl⟩

/-- C7 counterexample: the valid product with sku `a+b` is created, but
listing by its sku returns zero records under the store's real `$regex`
semantics — the pattern `a+b` (plus quantifier) does not match the text
`a+b` — refuting the claimed create-then-list round trip. -/
theorem create_then_list_by_sku_counterexample :
    validateProduct { name := some "A", sku := some "a+b", price := some 6 } =
      some ⟨"A", "a+b", none, some "Tabacco", none, 6, some "AAMS", none, some 0, true⟩ ∧
    create_product (some ({} : DBState))
        ⟨"A", "a+b", none, some "Tabacco", none, 6, some "AAMS", none, some 0, true⟩ =
      (Except.ok (genId 0),
       some ⟨[("_id", vStr (genId 0)) ::
           productDoc ⟨"A", "a+b", none, some "Tabacco", none, 6, some "AAMS", none, some 0, true⟩],
         [], [], 1⟩) ∧
    pcreSearch "a+b".data "a+b".data = false ∧
    list_productsPCRE
        ⟨[("_id", vStr (genId 0)) ::
            productDoc ⟨"A", "a+b", none, some "Tabacco", none, 6, some "AAMS", none, some 0, true⟩],
          [], [], 1⟩ (some "a+b") 100 = [] :=
  ⟨by decide, rfl, by decide, by decide⟩

/-- C7 (amended): for every valid product whose sku is free of regex
metacharacters (formalised: alphanumeric sku), creating it into an empty
catalog and then listing by its sku returns exactly one record whose
fields equal the validated input modulo the identifier — the internal
`_id` replaced by a string `id` field — with unspecified optional fields
taking their defaults: category Tabacco, tax_class AAMS, stock 0, active
true. For a sku containing metacharacters the round trip can fail,
because the listing reuses the sku verbatim as a `$regex` pattern. -/
theorem create_then_list_by_sku_amended (r : RawProduct) (p : TobaccoProduct) (st : DBState)
    (hv : validateProduct r = some p) (hempty : st.tobaccoproduct = [])
    (hsku : ∀ c ∈ p.sku.data, c.isAlphanum = true) :
    create_product (some st) p =
      (Except.ok (genId st.nextId),
       some { st with
              tobaccoproduct := [("_id", vStr (genId st.nextId)) :: productDoc p],
              nextId := st.nextId + 1 }) ∧
    list_productsPCRE
        { st with
          tobaccoproduct := [("_id", vStr (genId st.nextId)) :: productDoc p],
          nextId := st.nextId + 1 } (some p.sku) 100 =
      [productDoc p ++ [("id", vStr (genId st.nextId))]] ∧
    (r.category = none → p.category = some "Tabacco") ∧
    (r.tax_class = none → p.tax_class = some "AAMS") ∧
    (r.stock = none → p.stock = some 0) ∧
    (r.active = none → p.active = true) ∧
    (r.name = some p.name ∧ r.sku = some p.sku ∧ r.price = some p.price ∧
      r.brand = p.brand ∧ r.barcode = p.barcode ∧ r.esl_id = p.esl_id) ∧
    getVal (productDoc p) "sku" = some (vStr p.sku) ∧
    getVal (productDoc p) "price" = some (vNum p.price) := by
  have hplus : ∀ c ∈ p.sku.data, c ≠ '+' := by
    intro c hc heq
    subst heq
    exact absurd (hsku _ hc) (by decide)
  have hcreate : create_product (some st) p =
      (Except.ok (genId st.nextId),
       some { st with
              tobaccoproduct := [("_id", vStr (genId st.nextId)) :: productDoc p],
              nextId := st.nextId + 1 }) := by
    simp [create_product, create_document, insertDoc, setColl, getColl, hempty]
  have hlist : list_productsPCRE
      { st with
        tobaccoproduct := [("_id", vStr (genId st.nextId)) :: productDoc p],
        nextId := st.nextId + 1 } (some p.sku) 100 =
      [productDoc p ++ [("id", vStr (genId st.nextId))]] := by
    show ((List.filter (productFilterPCRE (some p.sku))
        [("_id", vStr (genId st.nextId)) :: productDoc p]).take 100).map serializeDoc = _
    rw [List.filter_cons, productFilterPCRE_inserted_self p _ hplus]
    rw [if_pos rfl, List.filter_nil, List.take_of_length_le (by simp)]
    simp [serializeDoc_inserted _ _ (genId_data_ne_nil _)]
  obtain ⟨rn, rs, rb, rc, rbar, rp, rt, re, rstk, ract⟩ := r
  cases rn with
  | none => exact absurd hv (by simp [validateProduct])
  | some n =>
  cases rs with
  | none => exact absurd hv (by simp [validateProduct])
  | some s =>
  cases rp with
  | none => exact absurd hv (by simp [validateProduct])
  | some pr =>
  simp only [validateProduct] at hv
  split at hv
  · injection hv with hp
    subst hp
    refine ⟨hcreate, hlist, ?_, ?_, ?_, ?_, ⟨rfl, rfl, rfl, rfl, rfl, rfl⟩, ?_, ?_⟩
    · intro h
      cases rc with
      | none => rfl
      | some c => exact Option.noConfusion h
    · intro h
      cases rt with
      | none => rfl
      | some c => exact Option.noConfusion h
    · intro h
      cases rstk with
      | none => rfl
      | some c => exact Option.noConfusion h
    · intro h
      cases ract with
      | none => rfl
      | some c => exact Option.noConfusion h
    · simp [productDoc, getVal]
    · simp [productDoc, getVal]
  · exact Option.noConfusion hv

/-- C7 witness for the amended claim: the spec scenario with an integral
price and the metacharacter-free sku MG20. -/
theorem create_then_list_by_sku_amended_witness :
    validateProduct
        { name := some "Marlboro Gold 20", sku := some "MG20", price := some 6 } =
      some ⟨"Marlboro Gold 20", "MG20", none, some "Tabacco", none, 6, some "AAMS", none,
        some 0, true⟩ ∧
    list_productsPCRE
        ⟨[("_id", vStr (genId 0)) ::
            productDoc ⟨"Marlboro Gold 20", "MG20", none, some "Tabacco", none, 6, some "AAMS",
              none, some 0, true⟩], [], [], 0 + 1⟩ (some "MG20") 100 =
      [productDoc ⟨"Marlboro Gold 20", "MG20", none, some "Tabacco", none, 6, some "AAMS", none,
          some 0, true⟩ ++ [("id", vStr (genId 0))]] :=
  ⟨by decide,
    (create_then_list_by_sku_amended
        { name := some "Marlboro Gold 20", sku := some "MG20", price := some 6 }
        ⟨"Marlboro Gold 20", "MG20", none, some "Tabacco", none, 6, some "AAMS", none,
          some 0, true⟩
        {} (by decide) rfl (by decide)).2.1⟩
